import Mathlib

/-!
Verification of the tweet collection / deduplication / ranking pipeline
(ai-daily-brief).  The Python source is shallowly embedded:

* `Tweet` mirrors the dataclass in `src/scraper/base.py`; `created_at`
  stores the instant (epoch seconds) of the timezone-aware datetime.
* `prefilter_tweets` mirrors `src/summarizer.py`; Python's stable
  `list.sort(key=..., reverse=True)` is modelled by `List.mergeSort`
  with the descending comparison (stable sorts agree on their output,
  so any stable sort is a faithful model).
* `fetch_all_tweets` mirrors `src/main.py`: the remote fetches are
  awaited strictly sequentially, so the collection loop is a pure fold
  over the per-source result lists; the mutable `seen_ids` set and
  accumulator become explicit state.
* `scrape_user` / `buildTweet` / `_parse_time` mirror
  `src/scraper/twikit_scraper.py`; the twikit client calls and
  `datetime.strptime` are external boundaries, modelled as outcome data
  (`UserFetch`) and an oracle function respectively.
-/

/-- Tweet record, from the dataclass in  src/scraper/base.py .
Engagement counters are Python ints; `created_at` is the instant of the
timezone-aware datetime, in epoch seconds. -/
structure Tweet where
  id : String
  author_handle : String
  author_name : String
  text : String
  created_at : Int
  likes : Int := 0
  retweets : Int := 0
  replies : Int := 0
  views : Int := 0
  url : String := ""
  is_retweet : Bool := false
  media_urls : List String := []
deriving DecidableEq, Repr

/-- Derived engagement score, from  Tweet.engagement_score  in
src/scraper/base.py:  likes + retweets * 2 + replies * 0.5 .
Counter values are integers, so the Python float arithmetic is exact and
is modelled by rational arithmetic. -/
def Tweet.engagement_score (t : Tweet) : Rat :=
  (t.likes : Rat) + (t.retweets : Rat) * 2 + (t.replies : Rat) * (1 / 2)

/-- Comparison used by the sort in  prefilter_tweets :
`a` may come before `b` iff `a`'s score is at least `b`'s
(`sort(key=lambda t: t.engagement_score, reverse=True)`). -/
def engagementDesc (a b : Tweet) : Bool :=
  decide (b.engagement_score ≤ a.engagement_score)

/-- Filter condition of the list comprehension in  prefilter_tweets :
`not t.is_retweet and t.created_at >= cutoff` with
`cutoff = now - timedelta(hours=lookback_hours)`. -/
def survives (now lookback_hours : Int) (t : Tweet) : Bool :=
  !t.is_retweet && decide (now - lookback_hours * 3600 ≤ t.created_at)

/-- Prefilter and ranker, from  prefilter_tweets  in src/summarizer.py:
drop retweets and stale tweets, stable-sort by engagement score
descending, truncate to `max_tweets`.  `now` is the value of
`datetime.now(timezone.utc)` at call time, passed explicitly. -/
def prefilter_tweets (tweets : List Tweet) (now : Int)
    (lookback_hours : Int := 24) (max_tweets : Nat := 200) : List Tweet :=
  let cutoff := now - lookback_hours * 3600
  let filtered := tweets.filter fun t =>
    !t.is_retweet && decide (cutoff ≤ t.created_at)
  (filtered.mergeSort engagementDesc).take max_tweets

theorem prefilter_tweets_def (tweets : List Tweet) (now lb : Int) (mc : Nat) :
    prefilter_tweets tweets now lb mc =
      ((tweets.filter (survives now lb)).mergeSort engagementDesc).take mc := rfl

/-- Dedup-and-append step `_add` from  fetch_all_tweets  in src/main.py.
The state is the `seen_ids` set (as a list, membership is what the code
uses) together with the `all_tweets` accumulator. -/
def _add (st : List String × List Tweet) (tweets : List Tweet) :
    List String × List Tweet :=
  tweets.foldl
    (fun st t => if t.id ∈ st.1 then st else (t.id :: st.1, st.2 ++ [t])) st

/-- Collection loop of  fetch_all_tweets  in src/main.py.  The scraper
calls are awaited one at a time, so the loop is a pure fold over the
per-handle result lists (phase 1) then the per-query result lists
(phase 2), threading the `seen_ids` / `all_tweets` state. -/
def fetch_all_tweets (handleResults queryResults : List (List Tweet)) :
    List Tweet :=
  let st0 : List String × List Tweet := ([], [])
  let st1 := handleResults.foldl _add st0
  let st2 := queryResults.foldl _add st1
  st2.2

/-- Modelled from the spec's description of the dedup rule ("dedup keeps
the first occurrence's fields", output "in the order first seen"): keep
the first occurrence of each id not already in `seen`.  Used as the
specification side of the refinement for the collection loop. -/
def firstOccurrences (seen : List String) : List Tweet → List Tweet
  | [] => []
  | t :: ts =>
    if t.id ∈ seen then firstOccurrences seen ts
    else t :: firstOccurrences (t.id :: seen) ts

/-- Set of ids seen after processing a list from `seen`. -/
def seenAfter (seen : List String) : List Tweet → List String
  | [] => seen
  | t :: ts =>
    if t.id ∈ seen then seenAfter seen ts
    else seenAfter (t.id :: seen) ts

theorem _add_eq (ts : List Tweet) (seen : List String) (acc : List Tweet) :
    _add (seen, acc) ts = (seenAfter seen ts, acc ++ firstOccurrences seen ts) := by
  induction ts generalizing seen acc with
  | nil => simp [_add, seenAfter, firstOccurrences]
  | cons t ts ih =>
    by_cases h : t.id ∈ seen
    · simp only [_add, List.foldl_cons, if_pos h]
      simpa [seenAfter, firstOccurrences, h] using ih seen acc
    · simp only [_add, List.foldl_cons, if_neg h]
      have := ih (t.id :: seen) (acc ++ [t])
      simp only [_add] at this
      simp [seenAfter, firstOccurrences, h, this]

theorem firstOccurrences_append (l l' : List Tweet) (seen : List String) :
    firstOccurrences seen (l ++ l') =
      firstOccurrences seen l ++ firstOccurrences (seenAfter seen l) l' := by
  induction l generalizing seen with
  | nil => simp [firstOccurrences, seenAfter]
  | cons t ts ih =>
    by_cases h : t.id ∈ seen
    · simp [firstOccurrences, seenAfter, h, ih]
    · simp [firstOccurrences, seenAfter, h, ih]

theorem seenAfter_append (l l' : List Tweet) (seen : List String) :
    seenAfter seen (l ++ l') = seenAfter (seenAfter seen l) l' := by
  induction l generalizing seen with
  | nil => simp [seenAfter]
  | cons t ts ih =>
    by_cases h : t.id ∈ seen
    · simp [seenAfter, h, ih]
    · simp [seenAfter, h, ih]

theorem foldl_add_eq (lists : List (List Tweet)) (seen : List String)
    (acc : List Tweet) :
    lists.foldl _add (seen, acc) =
      (seenAfter seen lists.flatten, acc ++ firstOccurrences seen lists.flatten) := by
  induction lists generalizing seen acc with
  | nil => simp [List.flatten, seenAfter, firstOccurrences]
  | cons l ls ih =>
    simp only [List.foldl_cons, List.flatten, _add_eq, ih,
      firstOccurrences_append, seenAfter_append, List.append_assoc]

theorem fetch_all_tweets_eq (hr qr : List (List Tweet)) :
    fetch_all_tweets hr qr = firstOccurrences [] ((hr ++ qr).flatten) := by
  simp [fetch_all_tweets, foldl_add_eq, List.flatten_append,
    firstOccurrences_append, seenAfter_append]

theorem mem_seenAfter_of_mem_seen {x : String} {seen : List String}
    (l : List Tweet) (h : x ∈ seen) : x ∈ seenAfter seen l := by
  induction l generalizing seen with
  | nil => simpa [seenAfter]
  | cons t ts ih =>
    by_cases ht : t.id ∈ seen
    · simpa [seenAfter, ht] using ih h
    · simp only [seenAfter, if_neg ht]
      exact ih (List.mem_cons_of_mem _ h)

theorem mem_seenAfter_of_mem {t : Tweet} {l : List Tweet}
    (seen : List String) (h : t ∈ l) : t.id ∈ seenAfter seen l := by
  induction l generalizing seen with
  | nil => cases h
  | cons s ts ih =>
    rcases List.mem_cons.mp h with rfl | h
    · by_cases hs : t.id ∈ seen
      · simpa [seenAfter, hs] using mem_seenAfter_of_mem_seen ts hs
      · simp only [seenAfter, if_neg hs]
        exact mem_seenAfter_of_mem_seen ts (List.mem_cons_self _ _)
    · by_cases hs : s.id ∈ seen
      · simpa [seenAfter, hs] using ih seen h
      · simp only [seenAfter, if_neg hs]
        exact ih _ h

theorem firstOccurrences_eq_nil {l : List Tweet} {seen : List String}
    (h : ∀ t ∈ l, t.id ∈ seen) : firstOccurrences seen l = [] := by
  induction l with
  | nil => rfl
  | cons t ts ih =>
    have ht := h t (List.mem_cons_self _ _)
    simp only [firstOccurrences, if_pos ht]
    exact ih fun s hs => h s (List.mem_cons_of_mem _ hs)

theorem firstOccurrences_nodup_and_fresh (l : List Tweet) (seen : List String) :
    ((firstOccurrences seen l).map (fun t => t.id)).Nodup ∧
      ∀ t ∈ firstOccurrences seen l, t.id ∉ seen := by
  induction l generalizing seen with
  | nil => simp [firstOccurrences]
  | cons t ts ih =>
    by_cases h : t.id ∈ seen
    · simpa [firstOccurrences, h] using ih seen
    · have ihs := ih (t.id :: seen)
      refine ⟨?_, ?_⟩
      · simp only [firstOccurrences, if_neg h, List.map_cons, List.nodup_cons]
        refine ⟨?_, ihs.1⟩
        intro hmem
        rcases List.mem_map.mp hmem with ⟨s, hs, hid⟩
        exact ihs.2 s hs (hid ▸ List.mem_cons_self _ _)
      · intro s hs
        simp only [firstOccurrences, if_neg h, List.mem_cons] at hs
        rcases hs with rfl | hs
        · exact h
        · exact fun hmem => ihs.2 s hs (List.mem_cons_of_mem _ hmem)

theorem mem_firstOccurrences {t : Tweet} {l : List Tweet} {seen : List String}
    (h : t ∈ firstOccurrences seen l) : t ∈ l := by
  induction l generalizing seen with
  | nil => cases h
  | cons s ts ih =>
    by_cases hs : s.id ∈ seen
    · simp only [firstOccurrences, if_pos hs] at h
      exact List.mem_cons_of_mem _ (ih h)
    · simp only [firstOccurrences, if_neg hs, List.mem_cons] at h
      rcases h with rfl | h
      · exact List.mem_cons_self _ _
      · exact List.mem_cons_of_mem _ (ih h)

/-- Aware Python datetime: `ts` is the instant in epoch seconds,
`tzoffset` is the attached `tzinfo` offset (`none` models a naive
datetime). -/
structure PyDateTime where
  ts : Int
  tzoffset : Option Int
deriving DecidableEq, Repr

/-- Value of `datetime.now(timezone.utc)`: the current instant with the
UTC timezone attached. -/
def now_utc (now : Int) : PyDateTime :=
  { ts := now, tzoffset := some 0 }

/-- Timestamp parser `TwikitScraper._parse_time` from
src/scraper/twikit_scraper.py.  `strptime` is the oracle for
`datetime.strptime(s, "%a %b %d %H:%M:%S %z %Y")`: `some dt` when the
string parses, `none` when `ValueError` is raised.  `time_str = none`
models a `None` argument; `if not time_str` also catches the empty
string. -/
def _parse_time (strptime : String → Option PyDateTime) (now : Int)
    (time_str : Option String) : PyDateTime :=
  match time_str with
  | none => now_utc now
  | some s =>
    if s = "" then now_utc now
    else
      match strptime s with
      | some dt => dt
      | none => now_utc now

/-- Python truthiness of an optional string (`None` and `""` are falsy). -/
def strTruthy : Option String → Bool
  | none => false
  | some s => !(s = "")

/-- Python `a or b` on optional strings. -/
def pyOr (a b : Option String) : Option String :=
  if strTruthy a then a else b

/-- Evaluation of `getattr(t, attr, 0) or 0` on an engagement counter:
`none` models the attribute being absent (so `getattr` returns the
default `0`) or being `None`; both are falsy and yield `0`.  A present
integer `n` yields `0` when `n = 0` (falsy) and `n` itself otherwise. -/
def pyOr0 : Option Int → Int
  | none => 0
  | some n => if n = 0 then 0 else n

/-- Raw provider item, the fields of a twikit tweet object that
`scrape_user` reads.  `Option` marks values that may be absent or
`None` in provider data. -/
structure RawTweet where
  id : String
  created_at : Option String
  text : Option String
  favorite_count : Option Int := none
  retweet_count : Option Int := none
  reply_count : Option Int := none
  view_count : Option Int := none
  retweeted_tweet : Bool := false
  media : List (Option String × Option String) := []
deriving DecidableEq, Repr

/-- Construction of one `Tweet` from provider data, from the loop body of
`TwikitScraper.scrape_user` in src/scraper/twikit_scraper.py.
`userName` models `getattr(user, "name", handle)`; each `media` entry is
the pair `(media_url_https, url)` of one media object. -/
def buildTweet (strptime : String → Option PyDateTime) (now : Int)
    (handle : String) (userName : Option String) (r : RawTweet) : Tweet :=
  { id := r.id
    author_handle := handle
    author_name := userName.getD handle
    text := r.text.getD ""
    created_at := (_parse_time strptime now r.created_at).ts
    likes := pyOr0 r.favorite_count
    retweets := pyOr0 r.retweet_count
    replies := pyOr0 r.reply_count
    views := pyOr0 r.view_count
    url := "https://x.com/" ++ handle ++ "/status/" ++ r.id
    is_retweet := r.retweeted_tweet ||
      (strTruthy r.text && (r.text.getD "").startsWith "RT @")
    media_urls := r.media.filterMap fun m =>
      if strTruthy (pyOr m.1 m.2) then pyOr m.1 m.2 else none }

/-- Outcome of the twikit client calls inside `scrape_user`:
either one of the two awaited calls raised, or the user lookup returned
`None`, or the user and its raw tweets were fetched. -/
inductive UserFetch where
  | fetchError (msg : String)
  | userNotFound
  | fetched (userName : Option String) (raws : List RawTweet)
deriving DecidableEq, Repr

/-- Scraper boundary `TwikitScraper.scrape_user` from
src/scraper/twikit_scraper.py: any provider exception is caught, logged
and degrades to the tweets accumulated so far (none, since both awaited
calls precede the construction loop and the loop itself only reads
already-fetched data); a missing user likewise yields the empty list. -/
def scrape_user (strptime : String → Option PyDateTime) (now : Int)
    (handle : String) (outcome : UserFetch) : List Tweet :=
  match outcome with
  | .fetchError _ => []
  | .userNotFound => []
  | .fetched userName raws => raws.map (buildTweet strptime now handle userName)

theorem engagementDesc_trans (a b c : Tweet) :
    engagementDesc a b → engagementDesc b c → engagementDesc a c := by
  simp only [engagementDesc, decide_eq_true_eq]
  exact fun h1 h2 => le_trans h2 h1

theorem engagementDesc_total (a b : Tweet) :
    engagementDesc a b || engagementDesc b a := by
  simp only [engagementDesc, Bool.or_eq_true, decide_eq_true_eq]
  exact (le_total _ _).symm

theorem pyOr0_nonneg {v : Option Int} (h : ∀ n, v = some n → 0 ≤ n) :
    0 ≤ pyOr0 v := by
  cases v with
  | none => simp [pyOr0]
  | some n =>
    have hn := h n rfl
    by_cases h0 : n = 0 <;> simp [pyOr0, h0, hn]

/-- C1: a Post appears in the output of `prefilter_tweets` only if it is
not a repost and is not older than `now - lookback`; the cutoff
comparison is inclusive, so a non-repost Post dated exactly at
`now - lookback` passes the filter (and is returned when it is the only
input). -/
theorem prefilter_filter_correct (tweets : List Tweet) (now lb : Int) (mc : Nat) :
    (∀ p ∈ prefilter_tweets tweets now lb mc,
        p.is_retweet = false ∧ now - lb * 3600 ≤ p.created_at) ∧
    (∀ p : Tweet, p.is_retweet = false → p.created_at = now - lb * 3600 →
        survives now lb p = true) ∧
    (∀ p : Tweet, p.is_retweet = false → p.created_at = now - lb * 3600 →
        prefilter_tweets [p] now lb 1 = [p]) := by
  refine ⟨?_, ?_, ?_⟩
  · intro p hp
    rw [prefilter_tweets_def] at hp
    have hp' := List.mem_mergeSort.mp (List.mem_of_mem_take hp)
    have := (List.mem_filter.mp hp').2
    simpa [survives] using this
  · intro p hrt hc
    simp [survives, hrt, hc]
  · intro p hrt hc
    rw [prefilter_tweets_def]
    have hs : survives now lb p = true := by simp [survives, hrt, hc]
    simp [List.filter, hs]
/-- C1 witness input: a non-repost tweet dated exactly at the cutoff
`now - lookback` for `now = 0`, `lookback_hours = 1`. -/
def twC1 : Tweet :=
  { id := "c1", author_handle := "h", author_name := "n", text := "",
    created_at := -3600 }

theorem prefilter_filter_correct_witness :
    prefilter_tweets [twC1] 0 1 1 = [twC1] :=
  (prefilter_filter_correct [twC1] 0 1 1).2.2 twC1 rfl (by decide)

/-- C2: the collection loop returns exactly the first occurrence, in
first-seen order, of every id across the handle-phase results followed
by the query-phase results (so handle-phase Posts precede query-phase
Posts, each phase in input order, and the first-fetched occurrence keeps
its fields), and the output ids are pairwise distinct. -/
theorem fetch_all_tweets_dedup (hr qr : List (List Tweet)) :
    fetch_all_tweets hr qr = firstOccurrences [] ((hr ++ qr).flatten) ∧
    ((fetch_all_tweets hr qr).map (fun t => t.id)).Nodup := by
  refine ⟨fetch_all_tweets_eq hr qr, ?_⟩
  rw [fetch_all_tweets_eq hr qr]
  exact (firstOccurrences_nodup_and_fresh _ _).1

/-- C5: the engagement score is `likes + 2*reposts + 0.5*replies`, and it
is a pure function of the three counters involved (recomputed on demand,
so it can never desync from them). -/
theorem engagement_score_formula (t : Tweet) :
    t.engagement_score =
      (t.likes : Rat) + 2 * (t.retweets : Rat) + (1 / 2) * (t.replies : Rat) ∧
    ∀ s : Tweet, s.likes = t.likes → s.retweets = t.retweets →
      s.replies = t.replies → s.engagement_score = t.engagement_score := by
  constructor
  · unfold Tweet.engagement_score
    ring
  · intro s h1 h2 h3
    unfold Tweet.engagement_score
    rw [h1, h2, h3]
/-- C5 witness inputs: two tweets sharing the three scored counters but
differing elsewhere. -/
def twC5a : Tweet :=
  { id := "a", author_handle := "h", author_name := "n", text := "",
    created_at := 0, likes := 3, retweets := 2, replies := 4 }
def twC5b : Tweet :=
  { id := "b", author_handle := "k", author_name := "m", text := "x",
    created_at := 7, likes := 3, retweets := 2, replies := 4, views := 9 }

theorem engagement_score_formula_witness :
    twC5a.engagement_score =
      (twC5a.likes : Rat) + 2 * (twC5a.retweets : Rat) +
        (1 / 2) * (twC5a.replies : Rat) ∧
    twC5b.engagement_score = twC5a.engagement_score :=
  ⟨(engagement_score_formula twC5a).1,
   (engagement_score_formula twC5a).2 twC5b rfl rfl rfl⟩

/-- C6: `prefilter_tweets` returns the first `max_tweets` items of the
sorted surviving list, so its length is the minimum of `max_tweets` and
the number of survivors (all survivors when fewer than `max_tweets`),
and `max_tweets = 0` yields the empty list. -/
theorem prefilter_truncates (tweets : List Tweet) (now lb : Int) (mc : Nat) :
    prefilter_tweets tweets now lb mc =
      ((tweets.filter (survives now lb)).mergeSort engagementDesc).take mc ∧
    (prefilter_tweets tweets now lb mc).length =
      min mc (tweets.filter (survives now lb)).length ∧
    prefilter_tweets tweets now lb 0 = [] := by
  refine ⟨prefilter_tweets_def tweets now lb mc, ?_, ?_⟩
  · rw [prefilter_tweets_def]
    simp [List.length_take]
  · rw [prefilter_tweets_def]
    rfl

/-- C9: `prefilter_tweets` is a pure function (the comprehension builds a
fresh list and the in-place sort runs on that fresh list, so the input
list object is untouched), and every element of the output is an element
of the input, with its fields unchanged. -/
theorem prefilter_frame (tweets : List Tweet) (now lb : Int) (mc : Nat) :
    ∀ p ∈ prefilter_tweets tweets now lb mc, p ∈ tweets := by
  intro p hp
  rw [prefilter_tweets_def] at hp
  exact (List.mem_filter.mp (List.mem_mergeSort.mp (List.mem_of_mem_take hp))).1
/-- C9 witness input: a recent non-repost tweet. -/
def twC9 : Tweet :=
  { id := "c9", author_handle := "h", author_name := "n", text := "",
    created_at := 0 }

theorem prefilter_frame_witness : twC9 ∈ [twC9] := by
  have h : prefilter_tweets [twC9] 0 1 1 = [twC9] := by
    rw [prefilter_tweets_def]
    have hs : survives 0 1 twC9 = true := by decide
    simp [List.filter, hs]
  exact prefilter_frame [twC9] 0 1 1 twC9 (by rw [h]; exact List.mem_cons_self _ _)

/-- C3: the sort in `prefilter_tweets` is stable — two surviving Posts
with exactly equal engagement scores keep their relative order — and on
an input that is already sorted descending by score, entirely recent and
repost-free, `prefilter_tweets` returns the input truncated to
`max_tweets`. -/
theorem prefilter_stable (tweets : List Tweet) (now lb : Int) (mc : Nat)
    (a b : Tweet)
    (hsub : [a, b].Sublist (tweets.filter (survives now lb)))
    (hsc : a.engagement_score = b.engagement_score) :
    [a, b].Sublist ((tweets.filter (survives now lb)).mergeSort engagementDesc) ∧
    (List.Pairwise (fun x y => engagementDesc x y = true) tweets →
      (∀ t ∈ tweets, survives now lb t = true) →
      prefilter_tweets tweets now lb mc = tweets.take mc) := by
  constructor
  · refine List.pair_sublist_mergeSort engagementDesc_trans engagementDesc_total ?_ hsub
    simp only [engagementDesc, decide_eq_true_eq]
    exact le_of_eq hsc.symm
  · intro hsorted hall
    rw [prefilter_tweets_def, List.filter_eq_self.mpr hall,
      List.mergeSort_of_sorted hsorted]

/-- C3 witness inputs: two equal-score tweets (score 1 each), both recent
non-reposts, in input order. -/
def twC3a : Tweet :=
  { id := "a", author_handle := "h", author_name := "n", text := "",
    created_at := 0, likes := 1 }
def twC3b : Tweet :=
  { id := "b", author_handle := "h", author_name := "n", text := "",
    created_at := 0, replies := 2 }

theorem prefilter_stable_witness :
    [twC3a, twC3b].Sublist
      (([twC3a, twC3b].filter (survives 0 1)).mergeSort engagementDesc) ∧
    prefilter_tweets [twC3a, twC3b] 0 1 2 = [twC3a, twC3b] := by
  have hf : [twC3a, twC3b].filter (survives 0 1) = [twC3a, twC3b] := by decide
  have hsc : twC3a.engagement_score = twC3b.engagement_score := by
    norm_num [Tweet.engagement_score, twC3a, twC3b]
  have h := prefilter_stable [twC3a, twC3b] 0 1 2 twC3a twC3b
    (by rw [hf]) hsc
  refine ⟨h.1, ?_⟩
  have h2 := h.2 ?_ ?_
  · simpa using h2
  · refine List.pairwise_cons.mpr ⟨?_, ?_⟩
    · intro y hy
      rcases List.mem_singleton.mp hy with rfl
      show engagementDesc twC3a twC3b = true
      norm_num [engagementDesc, Tweet.engagement_score, twC3a, twC3b]
    · simp
  · intro t ht
    rcases List.mem_cons.mp ht with rfl | ht
    · decide
    · rcases List.mem_singleton.mp ht with rfl
      decide

/-- C4: a failing fetch is caught inside `scrape_user` and degrades to
zero Posts for that source (and the Lean model of `scrape_user` is a
total function, so no exception escapes the collection run), while the
other sources are still processed: a run with one failing handle and one
handle returning two Posts yields exactly those two Posts. -/
theorem scrape_failures_isolated (strptime : String → Option PyDateTime)
    (now : Int) (h1 h2 e : String) (userName : Option String)
    (r1 r2 : RawTweet) (hid : r1.id ≠ r2.id) :
    scrape_user strptime now h1 (.fetchError e) = [] ∧
    fetch_all_tweets
        [scrape_user strptime now h1 (.fetchError e),
         scrape_user strptime now h2 (.fetched userName [r1, r2])] [] =
      [buildTweet strptime now h2 userName r1,
       buildTweet strptime now h2 userName r2] := by
  refine ⟨rfl, ?_⟩
  rw [fetch_all_tweets_eq]
  have hne : (buildTweet strptime now h2 userName r2).id ≠
      (buildTweet strptime now h2 userName r1).id := fun h => hid h.symm
  simp [scrape_user, firstOccurrences, hne]
/-- C4 witness inputs: two raw provider items with distinct ids. -/
def rawC4a : RawTweet := { id := "1", created_at := none, text := some "x" }
def rawC4b : RawTweet := { id := "2", created_at := none, text := some "y" }

theorem scrape_failures_isolated_witness :
    scrape_user (fun _ => none) 0 "bad" (.fetchError "boom") = [] ∧
    fetch_all_tweets
        [scrape_user (fun _ => none) 0 "bad" (.fetchError "boom"),
         scrape_user (fun _ => none) 0 "good" (.fetched none [rawC4a, rawC4b])] [] =
      [buildTweet (fun _ => none) 0 "good" none rawC4a,
       buildTweet (fun _ => none) 0 "good" none rawC4b] :=
  scrape_failures_isolated (fun _ => none) 0 "bad" "good" "boom" none
    rawC4a rawC4b (by decide)

/-- C7: dedup idempotence of the collection loop — when every Post in the
second batch `B` has an id already present in the first batch `A`,
collecting `A` then `B` returns exactly the result of collecting `A`
alone (same Posts, in `A`'s original first-seen order). -/
theorem collect_dedup_idempotent (A B : List Tweet)
    (h : ∀ t ∈ B, ∃ s ∈ A, s.id = t.id) :
    fetch_all_tweets [A] [B] = fetch_all_tweets [A] [] := by
  rw [fetch_all_tweets_eq, fetch_all_tweets_eq]
  have hB : firstOccurrences (seenAfter [] A) B = [] := by
    apply firstOccurrences_eq_nil
    intro t ht
    rcases h t ht with ⟨s, hs, hid⟩
    have hmem := mem_seenAfter_of_mem ([] : List String) hs
    rwa [hid] at hmem
  simp [firstOccurrences_append, hB]
/-- C7 witness inputs: the second batch repeats the first batch's id with
different fields. -/
def twC7a : Tweet :=
  { id := "7", author_handle := "h", author_name := "n", text := "first",
    created_at := 0 }
def twC7b : Tweet :=
  { id := "7", author_handle := "k", author_name := "m", text := "second",
    created_at := 5, likes := 9 }

theorem collect_dedup_idempotent_witness :
    fetch_all_tweets [[twC7a]] [[twC7b]] = fetch_all_tweets [[twC7a]] [] :=
  collect_dedup_idempotent [twC7a] [twC7b] (by decide)

/-- C8 counterexample input: a provider item whose `favorite_count` is
present and negative; `getattr(t, "favorite_count", 0) or 0` passes the
negative value through unchanged. -/
def rawC8neg : RawTweet :=
  { id := "n", created_at := none, text := none, favorite_count := some (-1) }

theorem buildTweet_negative_passthrough :
    (buildTweet (fun _ => none) 0 "h" none rawC8neg).likes = -1 ∧
    ¬ (0 ≤ (buildTweet (fun _ => none) 0 "h" none rawC8neg).likes) := by
  constructor
  · rfl
  · decide

/-- C8 (amended): every counter of a constructed Post is an integer,
never null: a counter that is absent or null in the provider data is
clamped to 0, and whenever the provider's present counter values are
non-negative (as actual provider counts are) the constructed Post's
counters are non-negative; a present negative provider value, however,
is passed through unchanged rather than clamped. -/
theorem buildTweet_counters (strptime : String → Option PyDateTime)
    (now : Int) (handle : String) (userName : Option String) (r : RawTweet)
    (hfav : ∀ n, r.favorite_count = some n → 0 ≤ n)
    (hret : ∀ n, r.retweet_count = some n → 0 ≤ n)
    (hrep : ∀ n, r.reply_count = some n → 0 ≤ n)
    (hview : ∀ n, r.view_count = some n → 0 ≤ n) :
    ((r.favorite_count = none →
        (buildTweet strptime now handle userName r).likes = 0) ∧
      (r.retweet_count = none →
        (buildTweet strptime now handle userName r).retweets = 0) ∧
      (r.reply_count = none →
        (buildTweet strptime now handle userName r).replies = 0) ∧
      (r.view_count = none →
        (buildTweet strptime now handle userName r).views = 0)) ∧
    0 ≤ (buildTweet strptime now handle userName r).likes ∧
    0 ≤ (buildTweet strptime now handle userName r).retweets ∧
    0 ≤ (buildTweet strptime now handle userName r).replies ∧
    0 ≤ (buildTweet strptime now handle userName r).views := by
  refine ⟨⟨?_, ?_, ?_, ?_⟩, ?_, ?_, ?_, ?_⟩
  · intro h; simp [buildTweet, h, pyOr0]
  · intro h; simp [buildTweet, h, pyOr0]
  · intro h; simp [buildTweet, h, pyOr0]
  · intro h; simp [buildTweet, h, pyOr0]
  · exact pyOr0_nonneg hfav
  · exact pyOr0_nonneg hret
  · exact pyOr0_nonneg hrep
  · exact pyOr0_nonneg hview
/-- C8 witness input: one counter present and positive, the rest absent
or null. -/
def rawC8 : RawTweet :=
  { id := "8", created_at := none, text := none, favorite_count := some 5 }

theorem buildTweet_counters_witness :
    (rawC8.retweet_count = none →
      (buildTweet (fun _ => none) 0 "h" none rawC8).retweets = 0) ∧
    0 ≤ (buildTweet (fun _ => none) 0 "h" none rawC8).likes := by
  have h := buildTweet_counters (fun _ => none) 0 "h" none rawC8
    (by intro n hn; simp [rawC8] at hn; omega)
    (by intro n hn; simp [rawC8] at hn)
    (by intro n hn; simp [rawC8] at hn)
    (by intro n hn; simp [rawC8] at hn)
  exact ⟨h.1.2.1, h.2.1⟩

/-- C10: `_parse_time` is total — for every input it returns a
timezone-aware datetime — and it falls back to the current UTC time when
the provider timestamp is `None`, empty, or fails to parse in the
expected Twitter format (the `strptime` oracle returns `none`). -/
theorem parse_time_total (strptime : String → Option PyDateTime) (now : Int)
    (haware : ∀ s dt, strptime s = some dt → dt.tzoffset ≠ none) :
    (∀ ts, (_parse_time strptime now ts).tzoffset ≠ none) ∧
    _parse_time strptime now none = now_utc now ∧
    _parse_time strptime now (some "") = now_utc now ∧
    ∀ s, strptime s = none → _parse_time strptime now (some s) = now_utc now := by
  refine ⟨?_, rfl, rfl, ?_⟩
  · intro ts
    match ts with
    | none => simp [_parse_time, now_utc]
    | some s =>
      by_cases hs : s = ""
      · simp [_parse_time, hs, now_utc]
      · simp only [_parse_time, if_neg hs]
        match hdt : strptime s with
        | some dt => exact haware s dt hdt
        | none => simp [now_utc]
  · intro s hs
    by_cases h : s = "" <;> simp [_parse_time, h, hs]

theorem parse_time_total_witness :
    (_parse_time (fun _ => none) 0 (some "not a twitter date")).tzoffset ≠ none ∧
    _parse_time (fun _ => none) 0 none = now_utc 0 := by
  have h := parse_time_total (fun _ => none) 0
    (fun s dt hdt => Option.noConfusion hdt)
  exact ⟨h.1 (some "not a twitter date"), h.2.1⟩
